import Mathlib

/-!
Verification of the Kidstalk voice-translation front-end.

The development shallowly embeds the program's core logic:

* a JSON value model and a parser modelling the platform's `JSON.parse`
  (used by `parseGeminiJson` in both drafts of the gateway client);
* the markdown code-fence stripping and trimming performed on gateway
  responses (`responseText.replace(/```json/g, '').replace(/```/g, '').trim()`);
* the two drafts of `parseGeminiJson` found in the repository;
* the session state (`AppState` from `types.ts`) and the state transitions
  performed by `App.tsx` (`checkApiKey`, `handleProcessAudio`,
  `handleProcessReply`, `playTTS`, `startRecording`, `stopRecording`,
  the recorder's `onstop` routing, `exitReplyMode`);
* the 16-bit little-endian PCM decoding done for TTS playback.

Asynchronous handlers are modelled as explicit state-transforming functions;
the network is modelled by passing the gateway's response text (an
`Option String`, mirroring `response.text : string | undefined`) as an input,
together with a count of network invocations actually attempted.
-/

/-- JSON values, as produced by the platform's `JSON.parse`.  Numbers keep
their source lexeme, which is lossless and avoids floating-point concerns
(no claim inspects numeric values). -/
inductive Json where
  | null : Json
  | bool : Bool → Json
  | num : String → Json
  | str : String → Json
  | arr : List Json → Json
  | obj : List (String × Json) → Json

/-- JSON whitespace characters (space, tab, line feed, carriage return). -/
def isJsonWs (c : Char) : Bool :=
  c == ' ' || c == '\t' || c == '\n' || c == '\r'

/-- Skip leading JSON whitespace. -/
def skipWs (cs : List Char) : List Char :=
  cs.dropWhile isJsonWs

/-- Value of a hexadecimal digit, if any. -/
def hexVal (c : Char) : Option Nat :=
  if '0' ≤ c ∧ c ≤ '9' then some (c.toNat - '0'.toNat)
  else if 'a' ≤ c ∧ c ≤ 'f' then some (c.toNat - 'a'.toNat + 10)
  else if 'A' ≤ c ∧ c ≤ 'F' then some (c.toNat - 'A'.toNat + 10)
  else none

/-- Parse the body of a JSON string (the opening quote already consumed),
returning the decoded characters and the remaining input.  Escapes follow the
JSON grammar; a `\u` escape becomes the character with that code point
(approximating UTF-16 code units by unicode scalars).  Unescaped control
characters are rejected, as `JSON.parse` does. -/
def parseStringChars : Nat → List Char → Option (List Char × List Char)
  | 0, _ => none
  | f + 1, cs =>
    match cs with
    | [] => none
    | '\"' :: rest => some ([], rest)
    | '\\' :: e :: rest =>
      match e with
      | '\"' => (parseStringChars f rest).map (fun p => ('\"' :: p.1, p.2))
      | '\\' => (parseStringChars f rest).map (fun p => ('\\' :: p.1, p.2))
      | '/' => (parseStringChars f rest).map (fun p => ('/' :: p.1, p.2))
      | 'b' => (parseStringChars f rest).map (fun p => ('\x08' :: p.1, p.2))
      | 'f' => (parseStringChars f rest).map (fun p => ('\x0c' :: p.1, p.2))
      | 'n' => (parseStringChars f rest).map (fun p => ('\n' :: p.1, p.2))
      | 'r' => (parseStringChars f rest).map (fun p => ('\r' :: p.1, p.2))
      | 't' => (parseStringChars f rest).map (fun p => ('\t' :: p.1, p.2))
      | 'u' =>
        match rest with
        | h1 :: h2 :: h3 :: h4 :: r2 =>
          match hexVal h1, hexVal h2, hexVal h3, hexVal h4 with
          | some a, some b, some c, some d =>
            (parseStringChars f r2).map
              (fun p => (Char.ofNat (4096 * a + 256 * b + 16 * c + d) :: p.1, p.2))
          | _, _, _, _ => none
        | _ => none
      | _ => none
    | c :: rest =>
      if c.toNat < 32 then none
      else (parseStringChars f rest).map (fun p => (c :: p.1, p.2))

/-- Parse the optional fraction part of a JSON number, returning its lexeme. -/
def parseFrac (cs : List Char) : Option (List Char × List Char) :=
  match cs with
  | '.' :: r =>
    let ds := r.takeWhile Char.isDigit
    if ds = [] then none else some ('.' :: ds, r.drop ds.length)
  | _ => some ([], cs)

/-- Parse the optional exponent part of a JSON number, returning its lexeme. -/
def parseExp (cs : List Char) : Option (List Char × List Char) :=
  match cs with
  | c :: r =>
    if c = 'e' ∨ c = 'E' then
      let sr : List Char × List Char :=
        match r with
        | '+' :: rr => (['+'], rr)
        | '-' :: rr => (['-'], rr)
        | _ => ([], r)
      let ds := sr.2.takeWhile Char.isDigit
      if ds = [] then none else some (c :: (sr.1 ++ ds), sr.2.drop ds.length)
    else some ([], cs)
  | [] => some ([], [])

/-- Parse a JSON number, returning its lexeme and the remaining input.
Leading zeros are rejected as in the JSON grammar. -/
def parseNumberLex (cs : List Char) : Option (List Char × List Char) :=
  let sr : List Char × List Char :=
    match cs with
    | '-' :: r => (['-'], r)
    | _ => ([], cs)
  let intPart : Option (List Char × List Char) :=
    match sr.2 with
    | '0' :: r => some (['0'], r)
    | c :: r =>
      if c.isDigit then some (c :: r.takeWhile Char.isDigit, r.dropWhile Char.isDigit)
      else none
    | [] => none
  match intPart with
  | none => none
  | some (ip, r1) =>
    match parseFrac r1 with
    | none => none
    | some (fp, r2) =>
      match parseExp r2 with
      | none => none
      | some (ep, r3) => some (sr.1 ++ ip ++ fp ++ ep, r3)

/-- Parse the elements of a non-empty JSON array (input begins at the first
element), given a parser `pv` for the nested values. -/
def parseItemsAux (pv : List Char → Option (Json × List Char)) :
    Nat → List Char → Option (List Json × List Char)
  | 0, _ => none
  | f + 1, cs =>
    match pv cs with
    | none => none
    | some (j, rest) =>
      match skipWs rest with
      | ',' :: r2 =>
        match parseItemsAux pv f r2 with
        | some (l, r3) => some (j :: l, r3)
        | none => none
      | ']' :: r2 => some ([j], r2)
      | _ => none

/-- Parse the members of a non-empty JSON object (input begins, after
whitespace, at the first key), given a parser `pv` for the nested values. -/
def parseMembersAux (pv : List Char → Option (Json × List Char)) :
    Nat → List Char → Option (List (String × Json) × List Char)
  | 0, _ => none
  | f + 1, cs =>
    match skipWs cs with
    | '\"' :: rest =>
      match parseStringChars (rest.length + 1) rest with
      | none => none
      | some (key, r1) =>
        match skipWs r1 with
        | ':' :: r2 =>
          match pv r2 with
          | none => none
          | some (v, r3) =>
            match skipWs r3 with
            | ',' :: r4 =>
              match parseMembersAux pv f r4 with
              | some (ms, r5) => some ((String.mk key, v) :: ms, r5)
              | none => none
            | '\x7d' :: r4 => some ([(String.mk key, v)], r4)
            | _ => none
        | _ => none
    | _ => none

/-- One step of the JSON value parser: parses a single value whose strictly
nested values are parsed by `pv`. -/
def parserStep (pv : List Char → Option (Json × List Char)) (cs0 : List Char) :
    Option (Json × List Char) :=
  match skipWs cs0 with
  | [] => none
  | c :: rest =>
    if c = '\x7b' then
      match skipWs rest with
      | '\x7d' :: r2 => some (Json.obj [], r2)
      | cs2 => (parseMembersAux pv (cs2.length + 1) cs2).map (fun p => (Json.obj p.1, p.2))
    else if c = '[' then
      match skipWs rest with
      | ']' :: r2 => some (Json.arr [], r2)
      | cs2 => (parseItemsAux pv (cs2.length + 1) cs2).map (fun p => (Json.arr p.1, p.2))
    else if c = '\"' then
      (parseStringChars (rest.length + 1) rest).map (fun p => (Json.str (String.mk p.1), p.2))
    else if c = 't' then
      if ("true".data).isPrefixOf (c :: rest) then some (Json.bool true, (c :: rest).drop 4)
      else none
    else if c = 'f' then
      if ("false".data).isPrefixOf (c :: rest) then some (Json.bool false, (c :: rest).drop 5)
      else none
    else if c = 'n' then
      if ("null".data).isPrefixOf (c :: rest) then some (Json.null, (c :: rest).drop 4)
      else none
    else
      (parseNumberLex (c :: rest)).map (fun p => (Json.num (String.mk p.1), p.2))

/-- Fuelled JSON value parser; the fuel bounds the nesting depth. -/
def parseValueFuel (fuel : Nat) : List Char → Option (Json × List Char) :=
  Nat.rec (motive := fun _ => List Char → Option (Json × List Char))
    (fun _ => none) (fun _ pv => parserStep pv) fuel

/-- Model of the platform's `JSON.parse`: parses one JSON value and requires
only whitespace to remain.  Each nesting level consumes at least one input
character, so `length + 1` fuel always suffices. -/
def Jparse (s : String) : Option Json :=
  match parseValueFuel (s.data.length + 1) s.data with
  | some (j, rest) => if skipWs rest = [] then some j else none
  | none => none

/-- The characters of the fence marker removed first by `parseGeminiJson`. -/
def fenceJsonPat : List Char := "```json".data

/-- The characters of the plain fence marker removed second. -/
def fencePat : List Char := "```".data

/-- Remove every occurrence of `pat` from the input, scanning left to right
without overlap — the semantics of `String.prototype.replace` with a global
literal pattern and empty replacement. -/
def stripAll (pat : List Char) : Nat → List Char → List Char
  | 0, cs => cs
  | f + 1, cs =>
    match cs with
    | [] => []
    | c :: rest =>
      if pat.isPrefixOf (c :: rest) then stripAll pat f ((c :: rest).drop pat.length)
      else c :: stripAll pat f rest

/-- Characters removed by `String.prototype.trim` (the ASCII ones; the
exotic unicode space characters never occur in the texts at issue). -/
def isTrimChar (c : Char) : Bool :=
  c == ' ' || c == '\t' || c == '\n' || c == '\r' || c == '\x0b' || c == '\x0c'

/-- Trim whitespace from both ends of a character list. -/
def trimChars (cs : List Char) : List Char :=
  ((cs.dropWhile isTrimChar).reverse.dropWhile isTrimChar).reverse

/-- The cleaning applied to the gateway response text by both drafts of
`parseGeminiJson`: remove all occurrences of the two fence markers, then
trim. -/
def cleanResponse (t : String) : String :=
  let cs := t.data
  let cs1 := stripAll fenceJsonPat cs.length cs
  let cs2 := stripAll fencePat cs1.length cs1
  String.mk (trimChars cs2)

/-- Whether the cleaned text starts with an opening brace or bracket — the
extra structural check of the second draft
(`cleaned.startsWith('\x7b') || cleaned.startsWith('[')`). -/
def startsWithBrace (s : String) : Bool :=
  match s.data with
  | c :: _ => c == '\x7b' || c == '['
  | [] => false

/-- `parseGeminiJson` from the first gateway-client draft: reject an absent
or empty response text, strip fences and trim, then hand the result to
`JSON.parse`; whatever parses is returned unchanged — no field validation. -/
def parseGeminiJson (responseText : Option String) : Except String Json :=
  match responseText with
  | none => Except.error "Empty response from AI"
  | some t =>
    if t = "" then Except.error "Empty response from AI"
    else
      match Jparse (cleanResponse t) with
      | some j => Except.ok j
      | none => Except.error "AI returned invalid data format"

/-- `parseGeminiJson` from the second gateway-client draft: same as the
first, plus a check that the cleaned text starts with an opening brace or
bracket; still no field validation of the parsed value. -/
def parseGeminiJson2 (responseText : Option String) : Except String Json :=
  match responseText with
  | none => Except.error "The AI response was empty. Please try speaking again."
  | some t =>
    if t = "" then Except.error "The AI response was empty. Please try speaking again."
    else
      let cleaned := cleanResponse t
      if startsWithBrace cleaned then
        match Jparse cleaned with
        | some j => Except.ok j
        | none => Except.error "Failed to process the AI response data."
      else Except.error "AI returned an unexpected format."

/-- Last-wins field lookup in a JSON object member list, matching the
semantics of `JSON.parse` for duplicate keys. -/
def lookupField : List (String × Json) → String → Option Json
  | [], _ => none
  | (k, v) :: rest, key =>
    match lookupField rest key with
    | some w => some w
    | none => if k = key then some v else none

/-- Field access on a JSON value (objects only). -/
def Json.getField (j : Json) (key : String) : Option Json :=
  match j with
  | Json.obj ms => lookupField ms key
  | _ => none

/-- Whether a JSON value carries every field the `TranslationResult` shape
requires (`originalText`, `detectedLanguage`, `translations.en`,
`translations.ar`, `translations.fr`, per `types.ts` and the response
schema sent by `processAudio`). -/
def hasRequiredTranslationFields (j : Json) : Bool :=
  (j.getField "originalText").isSome &&
  (j.getField "detectedLanguage").isSome &&
  (match j.getField "translations" with
   | some t => (t.getField "en").isSome && (t.getField "ar").isSome && (t.getField "fr").isSome
   | none => false)

/-- The UI languages of `types.ts` (`AppLanguage`). -/
inductive AppLanguage where
  | ar
  | en
  | fr
  deriving DecidableEq

/-- The session state of `types.ts` (`AppState`).  `transcription` and
`replyResult` hold the raw JSON value returned by the gateway parser, since
the program stores whatever `parseGeminiJson` returns without validation;
`audioBlob` is bytes plus a MIME type. -/
structure AppState where
  uiLanguage : AppLanguage
  darkMode : Bool
  isRecording : Bool
  replyTargetLanguage : Option AppLanguage
  audioBlob : Option (List Nat × String)
  transcription : Option Json
  replyResult : Option Json
  isLoading : Bool
  error : Option String

/-- The initial session state created by `App.tsx` (`useState` initializer). -/
def initialState : AppState :=
  { uiLanguage := AppLanguage.ar
    darkMode := false
    isRecording := false
    replyTargetLanguage := none
    audioBlob := none
    transcription := none
    replyResult := none
    isLoading := false
    error := none }

/-- `checkApiKey` from `App.tsx`: the environment's `API_KEY` (an
`Option String`, `none` for `undefined`) is rejected when absent, empty, or
the literal placeholder string "undefined". -/
def checkApiKey (key : Option String) : Except String Unit :=
  match key with
  | none => Except.error "API_KEY_MISSING"
  | some k =>
    if k = "undefined" ∨ k = "" then Except.error "API_KEY_MISSING"
    else Except.ok ()

/-- The error message chosen by `handleProcessAudio` for a failure with
message `m`. -/
def audioErrorMessage (m : String) : String :=
  if m = "API_KEY_MISSING" then
    "API Key is missing. Please set \x27API_KEY\x27 in your Vercel settings."
  else "Oops! Something went wrong understanding the audio."

/-- The error message chosen by `handleProcessReply` for a failure with
message `m`. -/
def replyErrorMessage (m : String) : String :=
  if m = "API_KEY_MISSING" then "API Key is missing. Please check your settings."
  else "Failed to process your reply."

/-- The (constant) error message set by `playTTS` on any failure. -/
def ttsErrorMessage : String := "Speech error: Please check your API key."

/-- The error message set by `startRecording` when microphone access fails. -/
def micErrorMessage : String := "Could not access microphone. Please check permissions."

/-- The state written by the entry `setState` of `handleProcessAudio`. -/
def processStartState (s : AppState) : AppState :=
  { s with isLoading := true, error := none, transcription := none, replyResult := none }

/-- Observable trace of one handler run: the state after the handler's entry
`setState`, the final settled state, and how many network requests were
actually issued. -/
structure RunTrace where
  intermediate : AppState
  final : AppState
  networkCalls : Nat

/-- `handleProcessAudio` from `App.tsx`: the entry `setState` sets loading
and clears error, transcription and reply result; then `checkApiKey` runs
(before any network traffic); on a present credential the gateway is called
once (its response text is the model input `resp`) and the parsed value is
stored, or the failure message is stored.  The audio bytes only feed the
request, so they do not influence the modelled outcome. -/
def handleProcessAudioRun (key : Option String) (resp : Option String)
    (_blob : List Nat) (s : AppState) : RunTrace :=
  let s1 := processStartState s
  match checkApiKey key with
  | Except.error m =>
    { intermediate := s1
      final := { s1 with isLoading := false, error := some (audioErrorMessage m) }
      networkCalls := 0 }
  | Except.ok _ =>
    match parseGeminiJson resp with
    | Except.ok r =>
      { intermediate := s1
        final := { s1 with transcription := some r, isLoading := false }
        networkCalls := 1 }
    | Except.error m =>
      { intermediate := s1
        final := { s1 with isLoading := false, error := some (audioErrorMessage m) }
        networkCalls := 1 }

/-- `playTTS` from `App.tsx`: check the credential, call `generateSpeech`
(outcome `speech`), decode and play (`playbackOk` models the playback
machinery not throwing).  Success performs no `setState` at all; any failure
is caught and only sets the error message.  Returns the final state and the
number of network requests issued. -/
def playTTSRun (key : Option String) (speech : Except String String)
    (playbackOk : Bool) (s : AppState) : AppState × Nat :=
  match checkApiKey key with
  | Except.error _ => ({ s with error := some ttsErrorMessage }, 0)
  | Except.ok _ =>
    match speech with
    | Except.error _ => ({ s with error := some ttsErrorMessage }, 1)
    | Except.ok _ =>
      if playbackOk then (s, 1)
      else ({ s with error := some ttsErrorMessage }, 1)

/-- `handleProcessReply` from `App.tsx`: the entry `setState` sets loading
and clears error and the reply result (the transcription is not touched);
then the credential check, the gateway call, and on success the reply result
is stored and `playTTS` is invoked on the translated reply. -/
def handleProcessReplyRun (key : Option String) (resp : Option String)
    (_blob : List Nat) (speech : Except String String) (playbackOk : Bool)
    (s : AppState) : RunTrace :=
  let s1 := { s with isLoading := true, error := none, replyResult := none }
  match checkApiKey key with
  | Except.error m =>
    { intermediate := s1
      final := { s1 with isLoading := false, error := some (replyErrorMessage m) }
      networkCalls := 0 }
  | Except.ok _ =>
    match parseGeminiJson resp with
    | Except.error m =>
      { intermediate := s1
        final := { s1 with isLoading := false, error := some (replyErrorMessage m) }
        networkCalls := 1 }
    | Except.ok r =>
      let s2 := { s1 with replyResult := some r, isLoading := false }
      let t := playTTSRun key speech playbackOk s2
      { intermediate := s1, final := t.1, networkCalls := 1 + t.2 }

/-- `startRecording` from `App.tsx`: on microphone success the recorder is
armed and the state records `isRecording := true, error := none`; on
`getUserMedia` failure only the error message is set. -/
def startRecordingRun (micOk : Bool) (s : AppState) : AppState :=
  if micOk then { s with isRecording := true, error := none }
  else { s with error := some micErrorMessage }

/-- `stopRecording` from `App.tsx`: only acts when a recorder exists and
`isRecording` is set, and then merely flips `isRecording` off (the recorder's
`onstop` event does the processing). -/
def stopRecordingRun (hasRecorder : Bool) (s : AppState) : AppState :=
  if hasRecorder ∧ s.isRecording then { s with isRecording := false } else s

/-- Which processing path the recorder's `onstop` handler takes. -/
inductive ProcessPath where
  | primary
  | reply (target : AppLanguage)
  deriving DecidableEq

/-- The routing of the `onstop` handler installed by `startRecording`:
`if (isReply && state.replyTargetLanguage) \x7b handleProcessReply ... \x7d
else \x7b handleProcessAudio ... \x7d`, where `state` is the session state
captured by the handler's closure. -/
def onstopRoute (isReply : Bool) (s : AppState) : ProcessPath :=
  match s.replyTargetLanguage with
  | some t => if isReply then ProcessPath.reply t else ProcessPath.primary
  | none => ProcessPath.primary

/-- The clip assembled by `onstop`: `new Blob(audioChunksRef.current, ...)`,
the concatenation of all buffered chunks. -/
def chunksToBlob (chunks : List (List Nat)) : List Nat :=
  chunks.flatten

/-- The full stop path: `stopRecording` flips `isRecording` off, the
recorder fires `onstop`, which assembles the clip from the buffered chunks
and routes it — with no emptiness check — to `handleProcessReply` (when the
handler was armed for a reply and a target language is set) or to
`handleProcessAudio`. -/
def stopAndProcess (key : Option String) (resp : Option String)
    (speech : Except String String) (playbackOk : Bool)
    (chunks : List (List Nat)) (isReply : Bool) (s : AppState) : RunTrace :=
  let s1 := stopRecordingRun true s
  let blob := chunksToBlob chunks
  match onstopRoute isReply s1 with
  | ProcessPath.primary => handleProcessAudioRun key resp blob s1
  | ProcessPath.reply _ => handleProcessReplyRun key resp blob speech playbackOk s1

/-- `exitReplyMode` from `App.tsx`. -/
def exitReplyMode (s : AppState) : AppState :=
  { s with replyTargetLanguage := none, replyResult := none }

/-- Whether the reply overlay renders: `state.replyTargetLanguage && ...` in
the main view. -/
def showsReplyOverlay (s : AppState) : Bool :=
  s.replyTargetLanguage.isSome

/-- Whether the results section renders: the main branch requires
`!state.replyTargetLanguage`, and the section itself
`state.transcription && !state.isLoading`. -/
def showsResultSection (s : AppState) : Bool :=
  s.replyTargetLanguage.isNone && s.transcription.isSome && !s.isLoading

/-- A signed 16-bit sample from two bytes, little endian, as read by the
`Int16Array` view in `playTTS`. -/
def toInt16 (lo hi : Nat) : Int :=
  if lo + 256 * hi < 32768 then ((lo + 256 * hi : Nat) : Int)
  else ((lo + 256 * hi : Nat) : Int) - 65536

/-- The samples read from a byte sequence by the `Int16Array` view: pairs of
consecutive bytes, little endian; a trailing odd byte is dropped
(`audioData.byteLength / 2` floors). -/
def bytesToInt16 : List Nat → List Int
  | [] => []
  | [_] => []
  | lo :: hi :: rest => toInt16 lo hi :: bytesToInt16 rest

/-- The playback decode loop of `playTTS`: each 16-bit sample divided by
32768.  The quotients are exactly representable as 32-bit floats, so rational
arithmetic models the computation exactly. -/
def decodeForPlayback (bytes : List Nat) : List ℚ :=
  (bytesToInt16 bytes).map (fun (v : Int) => (v : ℚ) / 32768)

theorem bytesToInt16_length : ∀ bytes : List Nat, (bytesToInt16 bytes).length = bytes.length / 2
  | [] => by simp [bytesToInt16]
  | [_] => by simp [bytesToInt16]
  | _ :: _ :: rest => by
    have ih := bytesToInt16_length rest
    simp [bytesToInt16, ih]
    omega

theorem toInt16_bounds (lo hi : Nat) (hlo : lo < 256) (hhi : hi < 256) :
    -32768 ≤ toInt16 lo hi ∧ toInt16 lo hi ≤ 32767 := by
  unfold toInt16
  split <;> omega

theorem mem_bytesToInt16_bounds : ∀ bytes : List Nat, (∀ b ∈ bytes, b < 256) →
    ∀ v ∈ bytesToInt16 bytes, -32768 ≤ v ∧ v ≤ 32767
  | [], _, v, hv => by simp [bytesToInt16] at hv
  | [a], _, v, hv => by simp [bytesToInt16] at hv
  | a :: b :: rest, hb, v, hv => by
    simp only [bytesToInt16, List.mem_cons] at hv
    rcases hv with h | h
    · subst h
      exact toInt16_bounds a b (hb a (by simp)) (hb b (by simp))
    · exact mem_bytesToInt16_bounds rest (fun x hx => hb x (by simp [hx])) v h

theorem decode_val_bounds (v : Int) (h1 : -32768 ≤ v) (h2 : v ≤ 32767) :
    -1 ≤ (v : ℚ) / 32768 ∧ (v : ℚ) / 32768 ≤ 32767 / 32768 := by
  have h1q : (-32768 : ℚ) ≤ (v : ℚ) := by exact_mod_cast h1
  have h2q : (v : ℚ) ≤ 32767 := by exact_mod_cast h2
  constructor
  · rw [le_div_iff₀ (by norm_num : (0:ℚ) < 32768)]
    linarith
  · rw [div_le_div_iff₀ (by norm_num : (0:ℚ) < 32768) (by norm_num : (0:ℚ) < 32768)]
    linarith

/-- C5: for every even-length byte sequence, playback decoding yields half as
many samples, each normalized value lies in [-1, 1] (indeed in
[-1, 32767/32768]), the sample 0 maps to exactly 0, and the samples 32767 and
-32768 map to the extreme values 32767/32768 and -1. -/
theorem decode_playback_spec (bytes : List Nat)
    (_heven : bytes.length % 2 = 0) (hb : ∀ b ∈ bytes, b < 256) :
    (decodeForPlayback bytes).length = bytes.length / 2 ∧
    (∀ q ∈ decodeForPlayback bytes, -1 ≤ q ∧ q ≤ 1) ∧
    (∀ q ∈ decodeForPlayback bytes, -1 ≤ q ∧ q ≤ 32767 / 32768) ∧
    decodeForPlayback [0, 0] = [0] ∧
    decodeForPlayback [255, 127] = [32767 / 32768] ∧
    decodeForPlayback [0, 128] = [-1] := by
  have key : ∀ q ∈ decodeForPlayback bytes, -1 ≤ q ∧ q ≤ 32767 / 32768 := by
    intro q hq
    obtain ⟨v, hv, hveq⟩ := List.mem_map.1 hq
    subst hveq
    have hvb := mem_bytesToInt16_bounds bytes hb v hv
    exact decode_val_bounds v hvb.1 hvb.2
  refine ⟨?_, ?_, key, ?_, ?_, ?_⟩
  · unfold decodeForPlayback
    rw [List.length_map, bytesToInt16_length]
  · intro q hq
    have h := key q hq
    exact ⟨h.1, h.2.trans (by norm_num)⟩
  · norm_num [decodeForPlayback, bytesToInt16, toInt16]
  · norm_num [decodeForPlayback, bytesToInt16, toInt16]
  · norm_num [decodeForPlayback, bytesToInt16, toInt16]

theorem decode_playback_spec_witness :
    (decodeForPlayback [0, 0, 255, 127, 0, 128]).length = 3 ∧
    decodeForPlayback [0, 128] = [-1] := by
  have h := decode_playback_spec [0, 0, 255, 127, 0, 128] (by decide) (by decide)
  exact ⟨h.1, h.2.2.2.2.2⟩

/-- C4: handleProcessAudio's entry setState sets isLoading and clears error,
transcription and replyResult before the gateway call; no stale result can be
shown while the request is in flight, and any transcription present in the
final state is the one parsed from this request's response. -/
theorem processAudio_entry_clears_state (key : Option String) (resp : Option String)
    (blob : List Nat) (s : AppState) :
    (handleProcessAudioRun key resp blob s).intermediate =
      { s with isLoading := true, error := none, transcription := none, replyResult := none } ∧
    (handleProcessAudioRun key resp blob s).final.replyResult = none ∧
    ((handleProcessAudioRun key resp blob s).final.transcription = none ∨
      (handleProcessAudioRun key resp blob s).final.transcription =
        (parseGeminiJson resp).toOption) := by
  rcases hk : checkApiKey key with m | u
  · simp [handleProcessAudioRun, hk, processStartState]
  · rcases hp : parseGeminiJson resp with m | r
    · simp [handleProcessAudioRun, hk, hp, processStartState, Except.toOption]
    · simp [handleProcessAudioRun, hk, hp, processStartState, Except.toOption]

/-- C6: a failure anywhere in the TTS path never clears a stored
transcription or reply result: every session field other than the error slot
is preserved by playTTS, and the error slot is either untouched or set to
the TTS error message. -/
theorem tts_failure_preserves_results (key : Option String)
    (speech : Except String String) (playbackOk : Bool) (s : AppState) :
    (playTTSRun key speech playbackOk s).1.transcription = s.transcription ∧
    (playTTSRun key speech playbackOk s).1.replyResult = s.replyResult ∧
    (playTTSRun key speech playbackOk s).1.isLoading = s.isLoading ∧
    (playTTSRun key speech playbackOk s).1.isRecording = s.isRecording ∧
    (playTTSRun key speech playbackOk s).1.replyTargetLanguage = s.replyTargetLanguage ∧
    (playTTSRun key speech playbackOk s).1.uiLanguage = s.uiLanguage ∧
    (playTTSRun key speech playbackOk s).1.darkMode = s.darkMode ∧
    (playTTSRun key speech playbackOk s).1.audioBlob = s.audioBlob ∧
    ((playTTSRun key speech playbackOk s).1.error = s.error ∨
      (playTTSRun key speech playbackOk s).1.error = some ttsErrorMessage) := by
  rcases hk : checkApiKey key with m | u
  · simp [playTTSRun, hk]
  · rcases speech with m | audio
    · simp [playTTSRun, hk]
    · cases playbackOk <;> simp [playTTSRun, hk]

/-- C7: exitReplyMode clears exactly replyTargetLanguage and replyResult,
leaves every other field (including transcription) unchanged, hides the
reply overlay, and the result section then renders exactly when a
transcription exists (and no request is loading). -/
theorem exitReplyMode_spec (s : AppState) :
    (exitReplyMode s).replyTargetLanguage = none ∧
    (exitReplyMode s).replyResult = none ∧
    (exitReplyMode s).transcription = s.transcription ∧
    (exitReplyMode s).uiLanguage = s.uiLanguage ∧
    (exitReplyMode s).darkMode = s.darkMode ∧
    (exitReplyMode s).isRecording = s.isRecording ∧
    (exitReplyMode s).isLoading = s.isLoading ∧
    (exitReplyMode s).error = s.error ∧
    (exitReplyMode s).audioBlob = s.audioBlob ∧
    showsReplyOverlay (exitReplyMode s) = false ∧
    showsResultSection (exitReplyMode s) = (s.transcription.isSome && !s.isLoading) := by
  simp [exitReplyMode, showsReplyOverlay, showsResultSection]

/-- C9: a reply-processing run never modifies the stored transcription: its
entry setState clears only error and replyResult while setting isLoading,
and both the intermediate and final states carry the original transcription,
with every field other than replyResult, isLoading and error preserved. -/
theorem processReply_preserves_transcription (key : Option String) (resp : Option String)
    (blob : List Nat) (speech : Except String String) (playbackOk : Bool) (s : AppState) :
    (handleProcessReplyRun key resp blob speech playbackOk s).intermediate =
      { s with isLoading := true, error := none, replyResult := none } ∧
    (handleProcessReplyRun key resp blob speech playbackOk s).intermediate.transcription =
      s.transcription ∧
    (handleProcessReplyRun key resp blob speech playbackOk s).final.transcription =
      s.transcription ∧
    (handleProcessReplyRun key resp blob speech playbackOk s).final.uiLanguage = s.uiLanguage ∧
    (handleProcessReplyRun key resp blob speech playbackOk s).final.darkMode = s.darkMode ∧
    (handleProcessReplyRun key resp blob speech playbackOk s).final.isRecording =
      s.isRecording ∧
    (handleProcessReplyRun key resp blob speech playbackOk s).final.replyTargetLanguage =
      s.replyTargetLanguage ∧
    (handleProcessReplyRun key resp blob speech playbackOk s).final.audioBlob = s.audioBlob := by
  rcases hk : checkApiKey key with m | u
  · simp [handleProcessReplyRun, hk]
  · rcases hp : parseGeminiJson resp with m | r
    · simp [handleProcessReplyRun, hk, hp]
    · rcases speech with m | audio
      · simp [handleProcessReplyRun, playTTSRun, hk, hp]
      · cases playbackOk <;> simp [handleProcessReplyRun, playTTSRun, hk, hp]

/-- C10: startRecording with microphone access granted sets isRecording and
clears error, leaving all other fields unchanged; on microphone failure it
only sets the error message, and isRecording stays false when it was false. -/
theorem startRecording_spec (micOk : Bool) (s : AppState) (h : s.isRecording = false) :
    (micOk = true → startRecordingRun micOk s = { s with isRecording := true, error := none }) ∧
    (micOk = false →
      startRecordingRun micOk s = { s with error := some micErrorMessage } ∧
      (startRecordingRun micOk s).isRecording = false ∧
      (startRecordingRun micOk s).transcription = s.transcription ∧
      (startRecordingRun micOk s).replyResult = s.replyResult ∧
      (startRecordingRun micOk s).isLoading = s.isLoading ∧
      (startRecordingRun micOk s).replyTargetLanguage = s.replyTargetLanguage) := by
  cases micOk <;> simp [startRecordingRun, h]

theorem startRecording_spec_witness :
    startRecordingRun false initialState = { initialState with error := some micErrorMessage } ∧
    (startRecordingRun false initialState).isRecording = false :=
  ⟨((startRecording_spec false initialState rfl).2 rfl).1,
   ((startRecording_spec false initialState rfl).2 rfl).2.1⟩

/-- C2: with an absent, empty or placeholder credential, checkApiKey raises
API_KEY_MISSING, so each gateway operation (audio processing, reply
processing, speech generation) fails before any network request: zero
network invocations and the credential-specific error message. -/
theorem missing_credential_blocks_network (key : Option String) (resp : Option String)
    (speech : Except String String) (playbackOk : Bool) (blob : List Nat) (s : AppState)
    (hk : key = none ∨ key = some "" ∨ key = some "undefined") :
    checkApiKey key = Except.error "API_KEY_MISSING" ∧
    (handleProcessAudioRun key resp blob s).networkCalls = 0 ∧
    (handleProcessAudioRun key resp blob s).final.error =
      some (audioErrorMessage "API_KEY_MISSING") ∧
    (handleProcessReplyRun key resp blob speech playbackOk s).networkCalls = 0 ∧
    (handleProcessReplyRun key resp blob speech playbackOk s).final.error =
      some (replyErrorMessage "API_KEY_MISSING") ∧
    (playTTSRun key speech playbackOk s).2 = 0 ∧
    (playTTSRun key speech playbackOk s).1.error = some ttsErrorMessage := by
  have hke : checkApiKey key = Except.error "API_KEY_MISSING" := by
    rcases hk with h | h | h <;> subst h <;> simp [checkApiKey]
  refine ⟨hke, ?_⟩
  simp [handleProcessAudioRun, handleProcessReplyRun, playTTSRun, hke]

theorem missing_credential_blocks_network_witness :
    (handleProcessAudioRun (some "undefined") none [] initialState).networkCalls = 0 ∧
    (playTTSRun (some "undefined") (Except.ok "") true initialState).2 = 0 :=
  ⟨(missing_credential_blocks_network (some "undefined") none (Except.ok "") true []
      initialState (Or.inr (Or.inr rfl))).2.1,
   (missing_credential_blocks_network (some "undefined") none (Except.ok "") true []
      initialState (Or.inr (Or.inr rfl))).2.2.2.2.2.1⟩

/-- C8: if the stop handler was armed with isReply = true but the captured
session state has no reply target language, the finished clip is routed to
the primary path: the run coincides with handleProcessAudio on the assembled
clip. -/
theorem reply_flag_null_target_primary (key : Option String) (resp : Option String)
    (speech : Except String String) (playbackOk : Bool)
    (chunks : List (List Nat)) (s : AppState)
    (h : s.replyTargetLanguage = none) :
    onstopRoute true s = ProcessPath.primary ∧
    stopAndProcess key resp speech playbackOk chunks true s =
      handleProcessAudioRun key resp (chunksToBlob chunks) (stopRecordingRun true s) := by
  have h1 : (stopRecordingRun true s).replyTargetLanguage = none := by
    by_cases hr : s.isRecording <;> simp [stopRecordingRun, hr, h]
  constructor
  · simp [onstopRoute, h]
  · simp [stopAndProcess, onstopRoute, h1]

theorem reply_flag_null_target_primary_witness :
    onstopRoute true initialState = ProcessPath.primary :=
  (reply_flag_null_target_primary (some "k") none (Except.ok "") true [] initialState rfl).1

/-- C1 counterexample: the gateway response text consisting of an empty JSON
object parses, is missing every required TranslationResult field, yet both
drafts of parseGeminiJson accept it, and handleProcessAudio stores it and
settles with no error — the session reaches Result, not Error. -/
theorem gemini_missing_field_not_rejected :
    hasRequiredTranslationFields (Json.obj []) = false ∧
    parseGeminiJson (some "\x7b\x7d") = Except.ok (Json.obj []) ∧
    parseGeminiJson2 (some "\x7b\x7d") = Except.ok (Json.obj []) ∧
    (handleProcessAudioRun (some "k") (some "\x7b\x7d") [] initialState).final.error = none ∧
    (handleProcessAudioRun (some "k") (some "\x7b\x7d") [] initialState).final.transcription =
      some (Json.obj []) ∧
    (handleProcessAudioRun (some "k") (some "\x7b\x7d") [] initialState).final.isLoading =
      false :=
  ⟨rfl, rfl, rfl, rfl, rfl, rfl⟩

/-- C1 (amended): a gateway response whose cleaned text parses as JSON is
accepted by parseGeminiJson without any shape validation, even when required
TranslationResult fields are missing; with a credential present the session
then transitions to Result with the ill-shaped object stored and no error.
The prior transcription is cleared by the entry setState of the request, not
on failure. -/
theorem gemini_unvalidated_shape_accepted (key : Option String) (t : String) (j : Json)
    (blob : List Nat) (s : AppState)
    (hk : checkApiKey key = Except.ok ())
    (hp : Jparse (cleanResponse t) = some j)
    (_hm : hasRequiredTranslationFields j = false) :
    parseGeminiJson (some t) = Except.ok j ∧
    (startsWithBrace (cleanResponse t) = true → parseGeminiJson2 (some t) = Except.ok j) ∧
    (handleProcessAudioRun key (some t) blob s).intermediate.transcription = none ∧
    (handleProcessAudioRun key (some t) blob s).final.transcription = some j ∧
    (handleProcessAudioRun key (some t) blob s).final.error = none ∧
    (handleProcessAudioRun key (some t) blob s).final.isLoading = false := by
  have ht : ¬ (t = "") := by
    intro h
    subst h
    rw [show Jparse (cleanResponse "") = none from rfl] at hp
    exact Option.noConfusion hp
  have h1 : parseGeminiJson (some t) = Except.ok j := by
    simp [parseGeminiJson, ht, hp]
  refine ⟨h1, ?_, ?_, ?_, ?_, ?_⟩
  · intro hsb
    simp [parseGeminiJson2, ht, hsb, hp]
  all_goals simp [handleProcessAudioRun, hk, h1, processStartState]

theorem gemini_unvalidated_shape_accepted_witness :
    parseGeminiJson (some "\x7b\x7d") = Except.ok (Json.obj []) ∧
    (handleProcessAudioRun (some "k") (some "\x7b\x7d") [] initialState).final.transcription =
      some (Json.obj []) :=
  ⟨(gemini_unvalidated_shape_accepted (some "k") "\x7b\x7d" (Json.obj []) [] initialState
      rfl rfl rfl).1,
   (gemini_unvalidated_shape_accepted (some "k") "\x7b\x7d" (Json.obj []) [] initialState
      rfl rfl rfl).2.2.2.1⟩

/-- The session state during an active recording, used to exercise the stop
path. -/
def recordingState : AppState := { initialState with isRecording := true }

/-- C3 counterexample: stopping a recording whose chunk buffer is empty
(zero captured bytes) is not a no-op back to Idle: the clip is the empty
byte sequence, yet the session still enters Loading and the gateway is
still invoked. -/
theorem empty_recording_still_processed :
    chunksToBlob [] = [] ∧
    (stopAndProcess (some "k") none (Except.ok "") true [] false
        recordingState).intermediate.isLoading = true ∧
    (stopAndProcess (some "k") none (Except.ok "") true [] false
        recordingState).networkCalls = 1 ∧
    (stopAndProcess (some "k") none (Except.ok "") true [] false
        recordingState).final.error = some (audioErrorMessage "Empty response from AI") :=
  ⟨rfl, rfl, rfl, rfl⟩

/-- C3 (amended): stopping a recording that captured zero bytes is processed
exactly like any other clip: the stop path flips isRecording off, enters
Loading, and (with a credential present) performs the gateway call on the
empty clip — there is no emptiness check and the session does not return to
Idle as a no-op. -/
theorem empty_recording_enters_loading (key : Option String) (resp : Option String)
    (speech : Except String String) (playbackOk : Bool) (s : AppState)
    (h : s.replyTargetLanguage = none) (hk : checkApiKey key = Except.ok ()) :
    chunksToBlob [] = [] ∧
    (stopAndProcess key resp speech playbackOk [] false s).intermediate.isLoading = true ∧
    (stopAndProcess key resp speech playbackOk [] false s).intermediate.isRecording = false ∧
    (stopAndProcess key resp speech playbackOk [] false s).networkCalls = 1 := by
  have h1 : (stopRecordingRun true s).replyTargetLanguage = none := by
    by_cases hr : s.isRecording <;> simp [stopRecordingRun, hr, h]
  have h2 : (stopRecordingRun true s).isRecording = false := by
    by_cases hr : s.isRecording <;> simp [stopRecordingRun, hr]
  rcases hp : parseGeminiJson resp with m | r <;>
    simp [stopAndProcess, onstopRoute, h1, h2, handleProcessAudioRun, hk, hp,
      processStartState, chunksToBlob]

theorem empty_recording_enters_loading_witness :
    (stopAndProcess (some "k") (some "\x7b\x7d") (Except.ok "") true [] false
        recordingState).intermediate.isLoading = true :=
  (empty_recording_enters_loading (some "k") (some "\x7b\x7d") (Except.ok "") true
      recordingState rfl rfl).2.1
